import Mathlib

set_option maxRecDepth 200000

/-!
Verification of the trend/rollup aggregation engine of
`sp_ask_school_data_crunching` (analytics/trend_analysis.py and
analytics/school_analytics.py), as a shallow embedding in Lean 4.

Timestamps are modelled as (year, month, day) triples ordered
lexicographically; missing values (pandas NaN/NaT, absent fields) are
modelled with `Option`.  `DateRangeTrendAnalysis.analyze_trends` is defined
twice in the source file; the second definition (line 694) is the one in
effect on the class, and it is the one embedded here.
-/

namespace SpAsk

/-- A calendar timestamp, truncated to day precision: the engine only ever
compares timestamps against day-bounded windows and extracts
`dt.year` / `dt.month`. -/
structure Timestamp where
  year : Int
  month : Nat
  day : Nat
deriving DecidableEq, Repr

/-- Lexicographic order on timestamps (year, then month, then day),
mirroring chronological comparison of pandas timestamps. -/
def tsLe (a b : Timestamp) : Bool :=
  if a.year ≠ b.year then decide (a.year < b.year)
  else if a.month ≠ b.month then decide (a.month < b.month)
  else decide (a.day ≤ b.day)

/-- One chat-session record, after `pd.to_datetime` conversion of the
timestamp columns: `started`/`accepted` may be missing (NaT),
`duration`/`wait` may be missing (NaN). `id` is always present. -/
structure ChatRecord where
  id : Nat
  queue : String
  started : Option Timestamp
  accepted : Option Timestamp
  duration : Option ℚ
  wait : Option ℚ
deriving DecidableEq, Repr

/-- One entry of the institution directory (`sp_ask_school_dict`):
the fields school.full_name, short_name and queues of each entry. -/
structure School where
  full_name : String
  short_name : String
  queues : List String
deriving DecidableEq, Repr

/-- pandas column mean with `skipna=True`: the arithmetic mean of the
present values; NaN (here `none`) when no value is present. -/
def meanOpt (xs : List (Option ℚ)) : Option ℚ :=
  let vs := xs.reduceOption
  if vs.length = 0 then none else some (vs.sum / (vs.length : ℚ))

/-- The `(started.dt.year, started.dt.month)` group key of a record;
`none` when `started` is missing (pandas drops NaN group keys). -/
def getYM (r : ChatRecord) : Option (Int × Nat) :=
  r.started.map (fun t => (t.year, t.month))

/-- Lexicographic strict order on `(year, month)` group keys: pandas
`groupby(sort=True)` lists group keys in this order. -/
def keyLt (a b : Int × Nat) : Bool :=
  decide (a.1 < b.1) || (decide (a.1 = b.1) && decide (a.2 < b.2))

/-- Insert a group key into a strictly-sorted key list, keeping it
strictly sorted (duplicates are dropped). -/
def insertKey (k : Int × Nat) : List (Int × Nat) → List (Int × Nat)
  | [] => [k]
  | j :: rest =>
    if k = j then j :: rest
    else if keyLt k j then k :: j :: rest
    else j :: insertKey k rest

/-- The sorted list of distinct `(year, month)` keys occurring among the
records (records with missing `started` contribute no key). -/
def monthKeys (rs : List ChatRecord) : List (Int × Nat) :=
  (rs.filterMap getYM).foldl (fun acc k => insertKey k acc) []

/-- The records of one `(year, month)` group. -/
def monthGroup (rs : List ChatRecord) (y : Int) (m : Nat) : List ChatRecord :=
  rs.filter (fun r => decide (getYM r = some (y, m)))

/-- One row of `_process_monthly_stats` output:
columns `year, month, chats, avg_duration, avg_wait`. -/
structure MonthlyRow where
  year : Int
  month : Nat
  chats : Nat
  avg_duration : Option ℚ
  avg_wait : Option ℚ
deriving DecidableEq, Repr

/-- Embedding of `DateRangeTrendAnalysis._process_monthly_stats`: group by
`(started.dt.year, started.dt.month)` and aggregate
`id → count`, `duration → mean`, `wait → mean`.  `count` counts the
(always present) ids, i.e. the group size; the means skip missing
values. -/
def monthlyStats (rs : List ChatRecord) : List MonthlyRow :=
  (monthKeys rs).map (fun k =>
    let g := monthGroup rs k.1 k.2
    { year := k.1
      month := k.2
      chats := g.length
      avg_duration := meanOpt (g.map (·.duration))
      avg_wait := meanOpt (g.map (·.wait)) })

/-- The total volume of a period according to its monthly aggregation:
the sum of the monthly `chats` counts. -/
def monthlyVolumeTotal (rs : List ChatRecord) : Nat :=
  ((monthlyStats rs).map (·.chats)).sum

/-- The unguarded percent change `((cur - prev) / prev) * 100`. -/
def pctNum (cur prev : ℚ) : ℚ := ((cur - prev) / prev) * 100

/-- The guarded percent change used for the duration and wait metrics:
`((cur - prev) / prev) * 100 if prev != 0 else 0`, over possibly-NaN
floats.  A NaN reference passes the `!= 0` test and the arithmetic then
propagates NaN; a NaN current value likewise yields NaN; a zero reference
takes the `else` branch and yields the number `0`. -/
def pctOpt (cur prev : Option ℚ) : Option ℚ :=
  match prev with
  | none => none
  | some p => if p = 0 then some 0 else cur.map (fun c => pctNum c p)

/-- One element of the `changes` list built in
`DateRangeTrendAnalysis.analyze_trends` (line 694 version). -/
structure ChangeRow where
  month : Nat
  prev_volume : Nat
  current_volume : Nat
  percent_change_volume : ℚ
  percent_change_duration : Option ℚ
  percent_change_wait : Option ℚ
deriving DecidableEq, Repr

/-- Build one change row from an aligned pair of monthly rows
(reference row `pr`, current row `cr`), as in source lines 740-748. -/
def mkChangeRow (pr cr : MonthlyRow) : ChangeRow :=
  { month := pr.month
    prev_volume := pr.chats
    current_volume := cr.chats
    percent_change_volume := pctNum (cr.chats : ℚ) (pr.chats : ℚ)
    percent_change_duration := pctOpt cr.avg_duration pr.avg_duration
    percent_change_wait := pctOpt cr.avg_wait pr.avg_wait }

/-- The `total_stats` block for one period (source lines 754-763):
`total_chats`, and the period-wide means, replaced by `0` when the
period is empty. -/
structure PeriodStats where
  total_chats : Nat
  avg_duration : Option ℚ
  avg_wait : Option ℚ
deriving DecidableEq, Repr

def mkPeriodStats (p : List ChatRecord) : PeriodStats :=
  { total_chats := p.length
    avg_duration := if p.length > 0 then meanOpt (p.map (·.duration)) else some 0
    avg_wait := if p.length > 0 then meanOpt (p.map (·.wait)) else some 0 }

/-- The `overall_changes` block (source lines 767-779). -/
structure OverallChanges where
  volume_change : ℚ
  duration_change : Option ℚ
  wait_change : Option ℚ
deriving DecidableEq, Repr

def mkOverall (prev cur : List ChatRecord) : OverallChanges :=
  if prev.length > 0 then
    { volume_change := pctNum (cur.length : ℚ) (prev.length : ℚ)
      duration_change :=
        pctOpt (meanOpt (cur.map (·.duration))) (meanOpt (prev.map (·.duration)))
      wait_change :=
        pctOpt (meanOpt (cur.map (·.wait))) (meanOpt (prev.map (·.wait))) }
  else
    { volume_change := if cur.length > 0 then 100 else 0
      duration_change := some 0
      wait_change := some 0 }

/-- The per-institution value stored in the `trends` dictionary. -/
structure TrendEntry where
  changes : List ChangeRow
  prev_stats : PeriodStats
  current_stats : PeriodStats
  overall_changes : OverallChanges
deriving DecidableEq, Repr

/-- Embedding of the queue filter `self.df[self.df[queue].isin(school_queues)]`. -/
def schoolChats (df : List ChatRecord) (s : School) : List ChatRecord :=
  df.filter (fun r => s.queues.contains r.queue)

/-- Window membership of a record: `started >= lo and started <= hi`;
a missing `started` (NaT) fails both comparisons. -/
def inWindow (lo hi : Timestamp) (t : Option Timestamp) : Bool :=
  match t with
  | none => false
  | some u => tsLe lo u && tsLe u hi

/-- Restrict records to those started inside the closed window. -/
def periodFilter (lo hi : Timestamp) (rs : List ChatRecord) : List ChatRecord :=
  rs.filter (fun r => inWindow lo hi r.started)

/-- The body of the per-school loop of
`DateRangeTrendAnalysis.analyze_trends` (line 694 version): `none`
models `continue` (the school contributes no dictionary entry). -/
def processSchool (prevStart prevEnd curStart curEnd : Timestamp)
    (df : List ChatRecord) (s : School) : Option (String × TrendEntry) :=
  if s.queues.isEmpty then none
  else
    let chats := schoolChats df s
    if chats.length = 0 then none
    else
      let prev_period := periodFilter prevStart prevEnd chats
      let current_period := periodFilter curStart curEnd chats
      let prev_monthly := monthlyStats prev_period
      let current_monthly := monthlyStats current_period
      if prev_monthly.isEmpty || current_monthly.isEmpty then none
      else
        let changes := prev_monthly.filterMap (fun pr =>
          (current_monthly.find? (fun c => decide (c.month = pr.month))).map
            (fun cr => mkChangeRow pr cr))
        if changes.isEmpty then none
        else
          some (s.short_name,
            { changes := changes
              prev_stats := mkPeriodStats prev_period
              current_stats := mkPeriodStats current_period
              overall_changes := mkOverall prev_period current_period })

/-- Embedding of `DateRangeTrendAnalysis.analyze_trends` (line 694 version): an empty
frame yields an empty result; otherwise one optional entry per directory
school, in directory order (Python dict insertion order). -/
def analyzeTrends (prevStart prevEnd curStart curEnd : Timestamp)
    (schools : List School) (df : List ChatRecord) :
    List (String × TrendEntry) :=
  if df.isEmpty then []
  else schools.filterMap (processSchool prevStart prevEnd curStart curEnd df)

/-- Embedding of the `ChatTrendAnalysis._fetch_data` inner loop (source lines 36-48): the
`current_date` increment sits INSIDE the `try` block, so a raising day
does not advance the date. -/
def chatTrendFetchLoop (fetch : Nat → Option (List ChatRecord)) :
    Nat → Nat → Nat → List ChatRecord → Option (List ChatRecord)
  | 0, _, _, _ => none
  | fuel + 1, cur, endD, acc =>
    if cur ≤ endD then
      match fetch cur with
      | some cs => chatTrendFetchLoop fetch fuel (cur + 1) endD (acc ++ cs)
      | none => chatTrendFetchLoop fetch fuel cur endD acc
    else some acc

/-- Embedding of the `DateRangeTrendAnalysis._fetch_data.fetch_range` loop (source lines
343-357): the increment sits AFTER the `try/except`, so a raising day
contributes nothing and the date still advances. -/
def rangeFetchLoop (fetch : Nat → Option (List ChatRecord)) :
    Nat → Nat → Nat → List ChatRecord → Option (List ChatRecord)
  | 0, _, _, _ => none
  | fuel + 1, cur, endD, acc =>
    if cur ≤ endD then
      rangeFetchLoop fetch fuel (cur + 1) endD (acc ++ ((fetch cur).getD []))
    else some acc

/-- The records of the successfully fetched days of `[cur, endD]`, in day
order: what a tolerant range fetch is expected to collect. -/
def successRecords (fetch : Nat → Option (List ChatRecord)) (cur endD : Nat) :
    List ChatRecord :=
  ((List.range (endD + 1 - cur)).map (fun i => cur + i)).flatMap
    (fun d => (fetch d).getD [])

/-- A raised Python exception, as class name plus message. -/
structure PyError where
  kind : String
  msg : String
deriving DecidableEq, Repr

/-- The exception raised by school_analytics.py line 38: a `ValueError`
whose message is: School (quoted name) not found. -/
def schoolNotFoundError (name : String) : PyError :=
  { kind := "ValueError", msg := "School \x27" ++ name ++ "\x27 not found" }

/-- The exception raised by school_analytics.py line 93: a `ValueError`
whose message is: No chats found for (name) in the specified date range. -/
def noChatsError (name : String) : PyError :=
  { kind := "ValueError"
    msg := "No chats found for " ++ name ++ " in the specified date range" }

/-- Embedding of `SchoolChatAnalytics._find_school`: first directory entry whose full
or short name matches case-insensitively. -/
def findSchool (schools : List School) (name : String) : Option School :=
  schools.find? (fun s =>
    (name.toLower == s.full_name.toLower) ||
      (name.toLower == s.short_name.toLower))

/-- Embedding of the `SchoolChatAnalytics.__init__` name resolution (lines 36-38):
an unresolvable name halts the invocation with the first fatal error. -/
def initSchoolAnalytics (schools : List School) (name : String) :
    Except PyError School :=
  match findSchool schools name with
  | none => Except.error (schoolNotFoundError name)
  | some s => Except.ok s

/-- Embedding of the `SchoolChatAnalytics._fetch_data` tail (lines 92-94): an empty
overall record list halts the invocation with the second fatal error. -/
def fetchDataResult (name : String) (chats : List ChatRecord) :
    Except PyError (List ChatRecord) :=
  if chats.isEmpty then Except.error (noChatsError name) else Except.ok chats

/-- The sort key of `generate_report` / `_generate_table_rows`:
`x[1][overall_changes][volume_change]`. -/
def entryKey (e : String × TrendEntry) : ℚ :=
  e.2.overall_changes.volume_change

/-- Comparison by sort key. -/
def entryLe (a b : String × TrendEntry) : Prop := entryKey a ≤ entryKey b

instance : DecidableRel entryLe := fun a b =>
  inferInstanceAs (Decidable (entryKey a ≤ entryKey b))

instance : IsTotal (String × TrendEntry) entryLe :=
  ⟨fun a b => le_total (entryKey a) (entryKey b)⟩

instance : IsTrans (String × TrendEntry) entryLe :=
  ⟨fun _ _ _ h1 h2 => le_trans h1 h2⟩

/-- Embedding of the report ordering
`sorted(trends.items(), key=lambda x: x[1][overall_changes][volume_change])`:
Python `sorted` is the stable ascending-by-key sort, whose output is the
unique key-sorted stable permutation; insertion sort with the nonstrict
key order produces exactly that list. -/
def sortedByChange (l : List (String × TrendEntry)) :
    List (String × TrendEntry) :=
  l.insertionSort entryLe

/-- Strict sortedness of a key list. -/
def KeySorted (l : List (Int × Nat)) : Prop :=
  l.Pairwise (fun a b => keyLt a b = true)

/-- The aligned change list built for one school: iterate the reference
monthly rows, look up the first current row with the same calendar month
number, and emit one change row per successful lookup. -/
def alignedChanges (pm cm : List MonthlyRow) : List ChangeRow :=
  pm.filterMap (fun pr =>
    (cm.find? (fun c => decide (c.month = pr.month))).map
      (fun cr => mkChangeRow pr cr))

def psW : Timestamp := ⟨2023, 1, 1⟩

def peW : Timestamp := ⟨2023, 12, 31⟩

def csW : Timestamp := ⟨2024, 1, 1⟩

def ceW : Timestamp := ⟨2024, 12, 31⟩

def schoolBeta : School :=
  { full_name := "Beta University", short_name := "beta", queues := ["beta-q"] }

def schoolAlpha : School :=
  { full_name := "Alpha University", short_name := "alpha", queues := ["alpha-q"] }

def schoolEmpty : School :=
  { full_name := "Empty College", short_name := "empty", queues := [] }

/-- A reference-period record whose duration is zero. -/
def rBetaPrev : ChatRecord :=
  { id := 1, queue := "beta-q", started := some ⟨2023, 3, 10⟩
    accepted := some ⟨2023, 3, 10⟩, duration := some 0, wait := some 4 }

/-- A current-period record with nonzero duration. -/
def rBetaCur : ChatRecord :=
  { id := 2, queue := "beta-q", started := some ⟨2024, 3, 12⟩
    accepted := some ⟨2024, 3, 12⟩, duration := some 5, wait := some 4 }

def dfBeta : List ChatRecord := [rBetaPrev, rBetaCur]

/-- A record for `schoolAlpha` in a given year/month. -/
def mkAlphaRec (y : Int) (m : Nat) : ChatRecord :=
  { id := 0, queue := "alpha-q", started := some ⟨y, m, 5⟩
    accepted := some ⟨y, m, 5⟩, duration := some 1, wait := some 1 }

/-- Reference monthly volumes [10, 100] and current volumes [20, 100]. -/
def dfAlpha : List ChatRecord :=
  List.replicate 10 (mkAlphaRec 2023 1) ++ List.replicate 100 (mkAlphaRec 2023 2) ++
  List.replicate 20 (mkAlphaRec 2024 1) ++ List.replicate 100 (mkAlphaRec 2024 2)

/-- A record whose queue belongs to no institution. -/
def recUnmatched : ChatRecord :=
  { id := 7, queue := "ghost-q", started := some ⟨2024, 2, 2⟩
    accepted := none, duration := some 3, wait := some 3 }

/-- A record with no parseable `started` timestamp. -/
def recNoStart : ChatRecord :=
  { id := 8, queue := "beta-q", started := none
    accepted := none, duration := some 3, wait := some 3 }

/-- An abandoned session: `accepted` absent, no wait or duration value. -/
def rAbandoned : ChatRecord :=
  { id := 20, queue := "beta-q", started := some ⟨2024, 5, 1⟩
    accepted := none, duration := none, wait := none }

/-- A completed session in the same month as `rAbandoned`. -/
def rNormal : ChatRecord :=
  { id := 21, queue := "beta-q", started := some ⟨2024, 5, 2⟩
    accepted := some ⟨2024, 5, 2⟩, duration := some 30, wait := some 10 }

def rsMay : List ChatRecord := [rAbandoned, rNormal]

/-- The single record returned by a successful fetch of day `d`. -/
def fetchedRec (d : Nat) : ChatRecord :=
  { id := d, queue := "beta-q", started := some ⟨2024, 1, d + 1⟩
    accepted := none, duration := some 1, wait := some 1 }

/-- A fetch capability for a 10-day range (days 0..9) in which the two
non-adjacent days 2 and 5 always raise. -/
def failFetch : Nat → Option (List ChatRecord) :=
  fun d => if d = 2 || d = 5 then none else some [fetchedRec d]

/-- A reference monthly row whose mean duration is zero and whose mean
wait is undefined. -/
def mrZero : MonthlyRow :=
  { year := 2023, month := 3, chats := 1, avg_duration := some 0, avg_wait := none }

/-- A current monthly row with ordinary defined means. -/
def mrCur : MonthlyRow :=
  { year := 2024, month := 3, chats := 2, avg_duration := some 5, avg_wait := some 6 }

/-! ### Theorems -/

theorem tsLe_year_le {a b : Timestamp} (h : tsLe a b = true) : a.year ≤ b.year := by
  unfold tsLe at h
  split at h
  · exact le_of_lt (by exact_mod_cast of_decide_eq_true h)
  · omega

theorem year_eq_of_between {lo hi t : Timestamp} {Y : Int}
    (hlo : lo.year = Y) (hhi : hi.year = Y)
    (h1 : tsLe lo t = true) (h2 : tsLe t hi = true) : t.year = Y := by
  have := tsLe_year_le h1
  have := tsLe_year_le h2
  omega

theorem keyLt_iff (a b : Int × Nat) :
    keyLt a b = true ↔ a.1 < b.1 ∨ (a.1 = b.1 ∧ a.2 < b.2) := by
  simp [keyLt]

theorem keyLt_trans {a b c : Int × Nat}
    (h1 : keyLt a b = true) (h2 : keyLt b c = true) : keyLt a c = true := by
  rw [keyLt_iff] at *
  rcases h1 with h1 | ⟨h1, h1'⟩ <;> rcases h2 with h2 | ⟨h2, h2'⟩ <;> omega

theorem keyLt_of_ne_of_not_lt {a b : Int × Nat}
    (hne : a ≠ b) (h : ¬ keyLt a b = true) : keyLt b a = true := by
  rw [keyLt_iff] at *
  rcases a with ⟨a1, a2⟩
  rcases b with ⟨b1, b2⟩
  have hne2 : ¬ (a1 = b1 ∧ a2 = b2) := by
    intro hc
    exact hne (Prod.ext hc.1 hc.2)
  omega

theorem mem_insertKey {k j : Int × Nat} {l : List (Int × Nat)} :
    j ∈ insertKey k l ↔ j = k ∨ j ∈ l := by
  induction l with
  | nil => simp [insertKey]
  | cons b rest ih =>
    by_cases hkb : k = b
    · subst hkb
      simp [insertKey]
    · by_cases hlt : keyLt k b = true
      · simp [insertKey, hkb, hlt]
      · simp [insertKey, hkb, hlt, ih]
        tauto

theorem keySorted_insertKey {k : Int × Nat} {l : List (Int × Nat)}
    (h : KeySorted l) : KeySorted (insertKey k l) := by
  induction l with
  | nil => simp [KeySorted, insertKey]
  | cons b rest ih =>
    rcases (List.pairwise_cons.mp h) with ⟨hb, hrest⟩
    by_cases hkb : k = b
    · subst hkb
      simpa [insertKey, KeySorted] using h
    · by_cases hlt : keyLt k b = true
      · rw [KeySorted] at *
        simp only [insertKey, if_neg hkb, if_pos hlt]
        refine List.pairwise_cons.mpr ⟨?_, h⟩
        intro j hj
        rcases List.mem_cons.mp hj with rfl | hj
        · exact hlt
        · exact keyLt_trans hlt (hb j hj)
      · rw [KeySorted] at *
        simp only [insertKey, if_neg hkb, if_neg hlt]
        refine List.pairwise_cons.mpr ⟨?_, ih hrest⟩
        intro j hj
        rcases mem_insertKey.mp hj with rfl | hj
        · exact keyLt_of_ne_of_not_lt hkb hlt
        · exact hb j hj

theorem mem_foldl_insertKey (ks : List (Int × Nat)) :
    ∀ (acc : List (Int × Nat)) (k : Int × Nat),
      k ∈ ks.foldl (fun a j => insertKey j a) acc ↔ k ∈ acc ∨ k ∈ ks := by
  induction ks with
  | nil => simp
  | cons j rest ih =>
    intro acc k
    simp only [List.foldl_cons, ih, mem_insertKey, List.mem_cons]
    tauto

theorem keySorted_foldl_insertKey (ks : List (Int × Nat)) :
    ∀ (acc : List (Int × Nat)), KeySorted acc →
      KeySorted (ks.foldl (fun a j => insertKey j a) acc) := by
  induction ks with
  | nil => intro acc h; exact h
  | cons j rest ih =>
    intro acc h
    exact ih _ (keySorted_insertKey h)

theorem mem_monthKeys {rs : List ChatRecord} {k : Int × Nat} :
    k ∈ monthKeys rs ↔ ∃ r ∈ rs, getYM r = some k := by
  unfold monthKeys
  rw [mem_foldl_insertKey]
  simp [List.mem_filterMap]

theorem keySorted_monthKeys (rs : List ChatRecord) : KeySorted (monthKeys rs) :=
  keySorted_foldl_insertKey _ _ (by simp [KeySorted])

theorem nodup_monthKeys (rs : List ChatRecord) : (monthKeys rs).Nodup := by
  have h := keySorted_monthKeys rs
  refine List.Pairwise.imp ?_ h
  intro a b hab
  rw [keyLt_iff] at hab
  intro hc
  subst hc
  omega

theorem monthGroup_eq_filter (rs : List ChatRecord) (y : Int) (m : Nat) :
    monthGroup rs y m = rs.filter (fun r => decide (getYM r = some (y, m))) := rfl

theorem mem_monthGroup {rs : List ChatRecord} {y : Int} {m : Nat} {r : ChatRecord} :
    r ∈ monthGroup rs y m ↔ r ∈ rs ∧ getYM r = some (y, m) := by
  simp [monthGroup, List.mem_filter]

theorem monthGroup_ne_nil_of_mem_keys {rs : List ChatRecord} {k : Int × Nat}
    (h : k ∈ monthKeys rs) : monthGroup rs k.1 k.2 ≠ [] := by
  rcases mem_monthKeys.mp h with ⟨r, hr, hrk⟩
  intro hc
  have : r ∈ monthGroup rs k.1 k.2 := mem_monthGroup.mpr ⟨hr, by simpa using hrk⟩
  simp [hc] at this

theorem mem_monthlyStats {rs : List ChatRecord} {row : MonthlyRow} :
    row ∈ monthlyStats rs ↔
      ∃ k ∈ monthKeys rs,
        row = { year := k.1
                month := k.2
                chats := (monthGroup rs k.1 k.2).length
                avg_duration := meanOpt ((monthGroup rs k.1 k.2).map (·.duration))
                avg_wait := meanOpt ((monthGroup rs k.1 k.2).map (·.wait)) } := by
  simp only [monthlyStats, List.mem_map]
  constructor
  · rintro ⟨k, hk, rfl⟩
    exact ⟨k, hk, rfl⟩
  · rintro ⟨k, hk, rfl⟩
    exact ⟨k, hk, rfl⟩

theorem chats_pos_of_mem_monthlyStats {rs : List ChatRecord} {row : MonthlyRow}
    (h : row ∈ monthlyStats rs) : 1 ≤ row.chats := by
  rcases mem_monthlyStats.mp h with ⟨k, hk, rfl⟩
  have hne := monthGroup_ne_nil_of_mem_keys hk
  cases hg : monthGroup rs k.1 k.2 with
  | nil => exact absurd hg hne
  | cons a l => simp [hg]

theorem monthlyStats_map_month (rs : List ChatRecord) :
    (monthlyStats rs).map (·.month) = (monthKeys rs).map Prod.snd := by
  simp [monthlyStats, List.map_map]

theorem monthlyStats_map_year (rs : List ChatRecord) :
    (monthlyStats rs).map (·.year) = (monthKeys rs).map Prod.fst := by
  simp [monthlyStats, List.map_map]

theorem monthlyStats_eq_nil_iff {rs : List ChatRecord} :
    monthlyStats rs = [] ↔ monthKeys rs = [] := by
  constructor
  · intro h
    cases hk : monthKeys rs with
    | nil => rfl
    | cons a l => simp [monthlyStats, hk] at h
  · intro h
    simp [monthlyStats, h]

/-- In a record set whose records all started inside a single-year window,
the month numbers of the monthly aggregation are pairwise distinct. -/
theorem months_nodup_of_single_year {lo hi : Timestamp} {Y : Int}
    (hlo : lo.year = Y) (hhi : hi.year = Y) (rs : List ChatRecord) :
    ((monthlyStats (periodFilter lo hi rs)).map (·.month)).Nodup := by
  rw [monthlyStats_map_month]
  have hsorted := keySorted_monthKeys (periodFilter lo hi rs)
  have hyear : ∀ k ∈ monthKeys (periodFilter lo hi rs), k.1 = Y := by
    intro k hk
    rcases mem_monthKeys.mp hk with ⟨r, hr, hrk⟩
    have hw : inWindow lo hi r.started = true := by
      have := List.mem_filter.mp hr
      exact this.2
    cases hs : r.started with
    | none => simp [inWindow, hs] at hw
    | some t =>
      simp only [inWindow, hs, Bool.and_eq_true] at hw
      have hy : t.year = Y := year_eq_of_between hlo hhi hw.1 hw.2
      simp [getYM, hs] at hrk
      rw [← hrk]
      exact hy
  have : (monthKeys (periodFilter lo hi rs)).Pairwise
      (fun a b => a.2 ≠ b.2) := by
    refine List.Pairwise.imp_of_mem ?_ hsorted
    intro a b ha hb hab
    rw [keyLt_iff] at hab
    have hya := hyear a ha
    have hyb := hyear b hb
    omega
  have h2 : List.Pairwise (fun a b => a ≠ b)
      ((monthKeys (periodFilter lo hi rs)).map Prod.snd) :=
    List.Pairwise.map Prod.snd (fun a b h => h) this
  exact h2

theorem meanOpt_filter_isSome (xs : List (Option ℚ)) :
    meanOpt xs = meanOpt (xs.filter (·.isSome)) := by
  have h : (xs.filter (·.isSome)).reduceOption = xs.reduceOption := by
    induction xs with
    | nil => rfl
    | cons a rest ih =>
      cases a with
      | none => simpa [List.reduceOption] using ih
      | some q => simpa [List.reduceOption] using ih
  simp [meanOpt, h]

theorem meanOpt_cons_none (xs : List (Option ℚ)) :
    meanOpt (none :: xs) = meanOpt xs := by
  simp [meanOpt, List.reduceOption]

theorem length_filter_add_not (p : ChatRecord → Bool) (l : List ChatRecord) :
    (l.filter p).length + (l.filter (fun a => ! p a)).length = l.length := by
  induction l with
  | nil => rfl
  | cons a rest ih =>
    cases hp : p a <;> simp [List.filter_cons, hp] <;> omega

theorem sum_group_lengths (K : List (Int × Nat)) :
    ∀ rs : List ChatRecord, K.Nodup →
      (∀ r ∈ rs, ∃ k ∈ K, getYM r = some k) →
      (K.map (fun k => (rs.filter (fun r => decide (getYM r = some k))).length)).sum
        = rs.length := by
  induction K with
  | nil =>
    intro rs _ hcov
    cases rs with
    | nil => rfl
    | cons r rest =>
      rcases hcov r (by simp) with ⟨k, hk, _⟩
      exact absurd hk (by simp)
  | cons k K' ih =>
    intro rs hnd hcov
    have hnd' := (List.nodup_cons.mp hnd).2
    have hknotin := (List.nodup_cons.mp hnd).1
    set rs' := rs.filter (fun r => ! decide (getYM r = some k)) with hrs'
    have hcov' : ∀ r ∈ rs', ∃ k' ∈ K', getYM r = some k' := by
      intro r hr
      have hmem := (List.mem_filter.mp hr).1
      have hne : ¬ getYM r = some k := by
        have := (List.mem_filter.mp hr).2
        simpa using this
      rcases hcov r hmem with ⟨k', hk', hrk'⟩
      rcases List.mem_cons.mp hk' with rfl | hk'
      · exact absurd hrk' hne
      · exact ⟨k', hk', hrk'⟩
    have hsame : ∀ k' ∈ K',
        (rs.filter (fun r => decide (getYM r = some k'))).length
          = (rs'.filter (fun r => decide (getYM r = some k'))).length := by
      intro k' hk'
      have hkk' : k ≠ k' := fun hc => hknotin (hc ▸ hk')
      rw [hrs', List.filter_filter]
      congr 1
      apply List.filter_congr
      intro r _
      have hk'k : ¬ k' = k := fun hc => hkk' hc.symm
      by_cases hr : getYM r = some k'
      · simp [hr, hk'k]
      · simp [hr]
    have hsum' :
        (K'.map (fun k' => (rs.filter (fun r => decide (getYM r = some k'))).length)).sum
          = rs'.length := by
      rw [List.map_congr_left (fun k' hk' => hsame k' hk')]
      exact ih rs' hnd' hcov'
    have hsplit := length_filter_add_not (fun r => decide (getYM r = some k)) rs
    simp only [List.map_cons, List.sum_cons]
    rw [hsum']
    rw [hrs']
    omega

/-- Every record of a period-filtered list has a parsed start timestamp. -/
theorem periodFilter_started_isSome {lo hi : Timestamp} {rs : List ChatRecord}
    {r : ChatRecord} (hr : r ∈ periodFilter lo hi rs) : (getYM r).isSome := by
  have hw := (List.mem_filter.mp hr).2
  cases hs : r.started with
  | none => simp [inWindow, hs] at hw
  | some t => simp [getYM, hs]

/-- The monthly `chats` counts of an aggregation sum to the number of
aggregated records, provided every record carries a group key. -/
theorem sum_monthly_chats (rs : List ChatRecord)
    (h : ∀ r ∈ rs, (getYM r).isSome) :
    ((monthlyStats rs).map (·.chats)).sum = rs.length := by
  have hcov : ∀ r ∈ rs, ∃ k ∈ monthKeys rs, getYM r = some k := by
    intro r hr
    rcases Option.isSome_iff_exists.mp (h r hr) with ⟨k, hk⟩
    exact ⟨k, mem_monthKeys.mpr ⟨r, hr, hk⟩, hk⟩
  have := sum_group_lengths (monthKeys rs) rs (nodup_monthKeys rs) hcov
  rw [← this]
  simp [monthlyStats, List.map_map]
  rfl

theorem processSchool_eq_some {ps pe cs ce : Timestamp} {df : List ChatRecord}
    {s : School} {n : String} {e : TrendEntry}
    (h : processSchool ps pe cs ce df s = some (n, e)) :
    n = s.short_name ∧
    e.changes =
      alignedChanges (monthlyStats (periodFilter ps pe (schoolChats df s)))
        (monthlyStats (periodFilter cs ce (schoolChats df s))) ∧
    e.prev_stats = mkPeriodStats (periodFilter ps pe (schoolChats df s)) ∧
    e.current_stats = mkPeriodStats (periodFilter cs ce (schoolChats df s)) ∧
    e.overall_changes =
      mkOverall (periodFilter ps pe (schoolChats df s))
        (periodFilter cs ce (schoolChats df s)) ∧
    monthlyStats (periodFilter ps pe (schoolChats df s)) ≠ [] ∧
    monthlyStats (periodFilter cs ce (schoolChats df s)) ≠ [] := by
  simp only [processSchool] at h
  split at h
  · exact absurd h (by simp)
  · split at h
    · exact absurd h (by simp)
    · split at h
      · exact absurd h (by simp)
      · rename_i hqueues hchats hmonthly
        rw [Bool.or_eq_true] at hmonthly
        push_neg at hmonthly
        split at h
        · exact absurd h (by simp)
        · rename_i hchanges
          rw [Option.some.injEq, Prod.mk.injEq] at h
          refine ⟨h.1.symm, ?_, ?_, ?_, ?_, ?_, ?_⟩
          · rw [← h.2]
            rfl
          · rw [← h.2]
          · rw [← h.2]
          · rw [← h.2]
          · intro hc
            have := hmonthly.1
            simp [List.isEmpty_iff, hc] at this
          · intro hc
            have := hmonthly.2
            simp [List.isEmpty_iff, hc] at this

theorem processSchool_eq_none {ps pe cs ce : Timestamp} {df : List ChatRecord}
    {s : School}
    (h : s.queues = [] ∨ schoolChats df s = [] ∨
      monthlyStats (periodFilter ps pe (schoolChats df s)) = [] ∨
      monthlyStats (periodFilter cs ce (schoolChats df s)) = []) :
    processSchool ps pe cs ce df s = none := by
  simp only [processSchool]
  rcases h with h | h | h | h
  · simp [h]
  · split
    · rfl
    · rw [if_pos (by simp [h])]
  · split
    · rfl
    · split
      · rfl
      · rw [if_pos (by simp [h])]
  · split
    · rfl
    · split
      · rfl
      · rw [if_pos (by simp [h])]

theorem mem_analyzeTrends {ps pe cs ce : Timestamp} {schools : List School}
    {df : List ChatRecord} {p : String × TrendEntry}
    (hp : p ∈ analyzeTrends ps pe cs ce schools df) :
    ∃ s ∈ schools, processSchool ps pe cs ce df s = some p := by
  unfold analyzeTrends at hp
  split at hp
  · exact absurd hp (by simp)
  · exact List.mem_filterMap.mp hp

theorem alignedChanges_prev_data {pm cm : List MonthlyRow} {c : ChangeRow}
    (hc : c ∈ alignedChanges pm cm) :
    ∃ pr ∈ pm, c.prev_volume = pr.chats ∧ c.month = pr.month := by
  rcases List.mem_filterMap.mp hc with ⟨pr, hpr, hf⟩
  rcases Option.map_eq_some'.mp hf with ⟨cr, _, rfl⟩
  exact ⟨pr, hpr, rfl, rfl⟩

/-- Exact occurrence count of each month number in the aligned change
list, assuming the reference aggregation mentions each month number at
most once: one row for months present on both sides, no row otherwise. -/
theorem countP_alignedChanges (cm : List MonthlyRow) (m : Nat) :
    ∀ pm : List MonthlyRow, (pm.map (·.month)).Nodup →
      (alignedChanges pm cm).countP (fun c => decide (c.month = m)) =
        if m ∈ pm.map (·.month) ∧ m ∈ cm.map (·.month) then 1 else 0 := by
  intro pm
  induction pm with
  | nil => simp [alignedChanges]
  | cons pr rest ih =>
    intro hnd
    rw [List.map_cons] at hnd
    have hnd2 := List.nodup_cons.mp hnd
    have hnotin : pr.month ∉ rest.map (·.month) := hnd2.1
    have hndrest : (rest.map (·.month)).Nodup := hnd2.2
    cases hfind : cm.find? (fun c => decide (c.month = pr.month)) with
    | none =>
      have hnocm : pr.month ∉ cm.map (·.month) := by
        intro hc
        rcases List.mem_map.mp hc with ⟨cr, hcr, hcrm⟩
        have := List.find?_eq_none.mp hfind cr hcr
        simp [hcrm] at this
      have hstep : alignedChanges (pr :: rest) cm = alignedChanges rest cm := by
        simp [alignedChanges, List.filterMap_cons, hfind]
      rw [hstep, ih hndrest]
      by_cases hm : m = pr.month
      · subst hm
        simp [hnotin, hnocm]
      · simp [List.mem_cons, hm]
    | some cr =>
      have hstep : alignedChanges (pr :: rest) cm
          = mkChangeRow pr cr :: alignedChanges rest cm := by
        simp [alignedChanges, List.filterMap_cons, hfind]
      have hcrmem : cr ∈ cm := List.mem_of_find?_eq_some hfind
      have hcrm : cr.month = pr.month := by
        have := List.find?_some hfind
        simpa using this
      rw [hstep, List.countP_cons, ih hndrest]
      by_cases hm : m = pr.month
      · subst hm
        have hincm : pr.month ∈ cm.map (·.month) := List.mem_map.mpr ⟨cr, hcrmem, hcrm⟩
        simp [mkChangeRow, hnotin, hincm]
      · have hmp : ¬ pr.month = m := fun hc => hm hc.symm
        simp [mkChangeRow, List.mem_cons, hm, hmp]

theorem monthlyStats_nil : monthlyStats [] = [] := rfl

theorem ne_nil_of_monthlyStats_ne_nil {rs : List ChatRecord}
    (h : monthlyStats rs ≠ []) : rs ≠ [] := by
  intro hc
  subst hc
  exact h rfl

theorem meanOpt_singleton (a : ℚ) : meanOpt [some a] = some a := by
  simp [meanOpt, List.reduceOption]

theorem alignedChanges_pct_volume {pm cm : List MonthlyRow} {c : ChangeRow}
    (hc : c ∈ alignedChanges pm cm) :
    c.percent_change_volume = pctNum (c.current_volume : ℚ) (c.prev_volume : ℚ) := by
  rcases List.mem_filterMap.mp hc with ⟨pr, _, hf⟩
  rcases Option.map_eq_some'.mp hf with ⟨cr, _, rfl⟩
  rfl

/-- The reference monthly aggregation of the `dfBeta` fixture. -/
theorem monthlyStats_beta_prev :
    monthlyStats (periodFilter psW peW (schoolChats dfBeta schoolBeta)) =
      [{ year := 2023, month := 3, chats := 1
         avg_duration := some 0, avg_wait := some 4 }] := by
  have hkeys : monthKeys (periodFilter psW peW (schoolChats dfBeta schoolBeta))
      = [(2023, 3)] := by decide
  have hgroup : monthGroup (periodFilter psW peW (schoolChats dfBeta schoolBeta)) 2023 3
      = [rBetaPrev] := by decide
  simp only [monthlyStats, hkeys, List.map_cons, List.map_nil]
  simp [hgroup, rBetaPrev, meanOpt_singleton]

/-- The current monthly aggregation of the `dfBeta` fixture. -/
theorem monthlyStats_beta_cur :
    monthlyStats (periodFilter csW ceW (schoolChats dfBeta schoolBeta)) =
      [{ year := 2024, month := 3, chats := 1
         avg_duration := some 5, avg_wait := some 4 }] := by
  have hkeys : monthKeys (periodFilter csW ceW (schoolChats dfBeta schoolBeta))
      = [(2024, 3)] := by decide
  have hgroup : monthGroup (periodFilter csW ceW (schoolChats dfBeta schoolBeta)) 2024 3
      = [rBetaCur] := by decide
  simp only [monthlyStats, hkeys, List.map_cons, List.map_nil]
  simp [hgroup, rBetaCur, meanOpt_singleton]

/-- C1 counterexample: on `dfBeta` the reference mean duration of the
aligned month is `0` and the current mean duration is `5` — an infinite
relative increase — yet the engine reports `percent_change_duration` as
the number `0`, not an "undefined" sentinel (`none`), contradicting the
claim that a zero reference always yields the sentinel and is never
reported as `0`. -/
theorem C1_counterexample :
    (analyzeTrends psW peW csW ceW [schoolBeta] dfBeta).map
        (fun p => p.2.changes.map (·.percent_change_duration)) = [[some 0]] ∧
    some (0 : ℚ) ≠ (none : Option ℚ) := by
  constructor
  · have hiss : (processSchool psW peW csW ceW dfBeta schoolBeta).isSome = true := by
      decide
    rcases Option.isSome_iff_exists.mp hiss with ⟨⟨n, e⟩, hp⟩
    have hch := processSchool_eq_some hp
    have hAT : analyzeTrends psW peW csW ceW [schoolBeta] dfBeta = [(n, e)] := by
      simp only [analyzeTrends]
      rw [if_neg (by decide), List.filterMap_cons, hp]
      rfl
    rw [hAT]
    simp only [List.map_cons, List.map_nil]
    rw [hch.2.1, monthlyStats_beta_prev, monthlyStats_beta_cur]
    simp [alignedChanges, mkChangeRow, pctOpt]
  · simp

/-- C1 (amended): in every aligned change row, a zero reference mean
duration or wait yields the number `0` (not a sentinel), an undefined
(NaN) reference mean propagates undefined, and only the volume metric is
immune because its reference count is a positive integer. -/
theorem C1_amended_zero_reference (pr cr : MonthlyRow) :
    (pr.avg_duration = some 0 → (mkChangeRow pr cr).percent_change_duration = some 0) ∧
    (pr.avg_duration = none → (mkChangeRow pr cr).percent_change_duration = none) ∧
    (pr.avg_wait = some 0 → (mkChangeRow pr cr).percent_change_wait = some 0) ∧
    (pr.avg_wait = none → (mkChangeRow pr cr).percent_change_wait = none) := by
  refine ⟨?_, ?_, ?_, ?_⟩ <;> intro h <;> simp [mkChangeRow, pctOpt, h]

/-- Witness for C1 (amended) at the concrete rows `mrZero`, `mrCur`. -/
theorem C1_amended_zero_reference_witness :
    (mkChangeRow mrZero mrCur).percent_change_duration = some 0 ∧
    (mkChangeRow mrZero mrCur).percent_change_wait = none :=
  ⟨(C1_amended_zero_reference mrZero mrCur).1 rfl,
   (C1_amended_zero_reference mrZero mrCur).2.2.2 rfl⟩

/-- C2: the institution-level aggregate percent change of volume equals
`(current_total - reference_total) / reference_total * 100` over the
summed monthly counts of the two period aggregations (equivalently, the
period record totals) — a volume-weighted figure, not the mean of the
monthly percent changes. -/
theorem C2_aggregate_is_pct_of_sums (ps pe cs ce : Timestamp)
    (df : List ChatRecord) (s : School) (n : String) (e : TrendEntry)
    (h : processSchool ps pe cs ce df s = some (n, e)) :
    e.overall_changes.volume_change =
      pctNum ((monthlyVolumeTotal (periodFilter cs ce (schoolChats df s)) : ℚ))
        ((monthlyVolumeTotal (periodFilter ps pe (schoolChats df s)) : ℚ)) := by
  rcases processSchool_eq_some h with ⟨-, -, -, -, hov, hpm, -⟩
  have hprev_ne : periodFilter ps pe (schoolChats df s) ≠ [] :=
    ne_nil_of_monthlyStats_ne_nil hpm
  have hlen : 0 < (periodFilter ps pe (schoolChats df s)).length :=
    List.length_pos.mpr hprev_ne
  have hsump : monthlyVolumeTotal (periodFilter ps pe (schoolChats df s))
      = (periodFilter ps pe (schoolChats df s)).length :=
    sum_monthly_chats (periodFilter ps pe (schoolChats df s))
      (fun r hr => periodFilter_started_isSome hr)
  have hsumc : monthlyVolumeTotal (periodFilter cs ce (schoolChats df s))
      = (periodFilter cs ce (schoolChats df s)).length :=
    sum_monthly_chats (periodFilter cs ce (schoolChats df s))
      (fun r hr => periodFilter_started_isSome hr)
  rw [hov]
  simp only [mkOverall, if_pos hlen]
  rw [hsump, hsumc]

/-- Witness for C2 on `dfAlpha` (reference monthly volumes [10, 100],
current [20, 100]): the aggregate is `100/11 ≈ 9.09`, which differs from
`50`, the arithmetic mean of the monthly percent changes `+100%` and
`0%`. -/
theorem C2_aggregate_is_pct_of_sums_witness :
    ((processSchool psW peW csW ceW dfAlpha schoolAlpha).map
        (fun p => p.2.overall_changes.volume_change) = some (100 / 11)) ∧
    ((100 : ℚ) / 11 ≠ 50) ∧
    ((processSchool psW peW csW ceW dfAlpha schoolAlpha).map
        (fun p => (p.2.changes.map (·.percent_change_volume)).sum /
          (p.2.changes.length : ℚ)) = some 50) := by
  have hiss : (processSchool psW peW csW ceW dfAlpha schoolAlpha).isSome = true := by
    decide
  rcases Option.isSome_iff_exists.mp hiss with ⟨⟨n, e⟩, hp⟩
  have hform := C2_aggregate_is_pct_of_sums psW peW csW ceW dfAlpha schoolAlpha n e hp
  have hsump : monthlyVolumeTotal (periodFilter psW peW (schoolChats dfAlpha schoolAlpha))
      = 110 := by decide
  have hsumc : monthlyVolumeTotal (periodFilter csW ceW (schoolChats dfAlpha schoolAlpha))
      = 120 := by decide
  rw [hsump, hsumc] at hform
  have hvol : e.overall_changes.volume_change = 100 / 11 := by
    rw [hform]
    norm_num [pctNum]
  have hchg := (processSchool_eq_some hp).2.1
  have hcv : (alignedChanges
      (monthlyStats (periodFilter psW peW (schoolChats dfAlpha schoolAlpha)))
      (monthlyStats (periodFilter csW ceW (schoolChats dfAlpha schoolAlpha)))).map
        (fun c => (c.current_volume, c.prev_volume)) = [(20, 10), (100, 100)] := by
    decide
  have hlen2 : (alignedChanges
      (monthlyStats (periodFilter psW peW (schoolChats dfAlpha schoolAlpha)))
      (monthlyStats (periodFilter csW ceW (schoolChats dfAlpha schoolAlpha)))).length = 2 := by
    decide
  have hmean : (e.changes.map (·.percent_change_volume)).sum /
      (e.changes.length : ℚ) = 50 := by
    rw [hchg]
    have hmap : (alignedChanges
        (monthlyStats (periodFilter psW peW (schoolChats dfAlpha schoolAlpha)))
        (monthlyStats (periodFilter csW ceW (schoolChats dfAlpha schoolAlpha)))).map
          (·.percent_change_volume)
        = [pctNum (20 : ℚ) 10, pctNum (100 : ℚ) 100] := by
      rw [List.map_congr_left (fun c hc => alignedChanges_pct_volume hc)]
      have hcomp : (alignedChanges
          (monthlyStats (periodFilter psW peW (schoolChats dfAlpha schoolAlpha)))
          (monthlyStats (periodFilter csW ceW (schoolChats dfAlpha schoolAlpha)))).map
            (fun c => pctNum (c.current_volume : ℚ) (c.prev_volume : ℚ))
          = ((alignedChanges
              (monthlyStats (periodFilter psW peW (schoolChats dfAlpha schoolAlpha)))
              (monthlyStats (periodFilter csW ceW (schoolChats dfAlpha schoolAlpha)))).map
                (fun c => (c.current_volume, c.prev_volume))).map
              (fun q => pctNum (q.1 : ℚ) (q.2 : ℚ)) := by
        rw [List.map_map]
        rfl
      rw [hcomp, hcv]
      rfl
    rw [hmap, hlen2]
    norm_num [pctNum]
  exact ⟨by rw [hp, Option.map_some', hvol],
         by norm_num,
         by rw [hp, Option.map_some', hmean]⟩

/-- C3: for a reference window inside year `Y` and a current window inside
year `Y + 1`, the aligned change list of an emitted institution contains
exactly one row for every calendar month number present in both monthly
aggregations, and no row for a month number absent from the reference
aggregation (or from the current one): alignment is by calendar month
number, not by `(year, month)`. -/
theorem C3_month_alignment (ps pe cs ce : Timestamp) (Y : Int)
    (df : List ChatRecord) (s : School) (n : String) (e : TrendEntry)
    (hpsy : ps.year = Y) (hpey : pe.year = Y)
    (hcsy : cs.year = Y + 1) (hcey : ce.year = Y + 1)
    (h : processSchool ps pe cs ce df s = some (n, e)) (m : Nat) :
    e.changes.countP (fun c => decide (c.month = m)) =
      if m ∈ (monthlyStats (periodFilter ps pe (schoolChats df s))).map (·.month) ∧
         m ∈ (monthlyStats (periodFilter cs ce (schoolChats df s))).map (·.month)
      then 1 else 0 := by
  rcases processSchool_eq_some h with ⟨-, hch, -⟩
  rw [hch]
  exact countP_alignedChanges _ m _
    (months_nodup_of_single_year hpsy hpey (schoolChats df s))

/-- Witness for C3 on the `dfBeta` fixture (reference window inside 2023,
current window inside 2024): the single emitted institution has exactly
one aligned row for month 3 and none for any other month. -/
theorem C3_month_alignment_witness :
    (analyzeTrends psW peW csW ceW [schoolBeta] dfBeta).all (fun p =>
      decide (p.2.changes.countP (fun c => decide (c.month = 3)) =
        if 3 ∈ (monthlyStats (periodFilter psW peW (schoolChats dfBeta schoolBeta))).map (·.month) ∧
           3 ∈ (monthlyStats (periodFilter csW ceW (schoolChats dfBeta schoolBeta))).map (·.month)
        then 1 else 0) &&
      decide (p.2.changes.countP (fun c => decide (c.month = 4)) =
        if 4 ∈ (monthlyStats (periodFilter psW peW (schoolChats dfBeta schoolBeta))).map (·.month) ∧
           4 ∈ (monthlyStats (periodFilter csW ceW (schoolChats dfBeta schoolBeta))).map (·.month)
        then 1 else 0)) = true ∧
    (analyzeTrends psW peW csW ceW [schoolBeta] dfBeta).length = 1 := by
  constructor
  · rw [List.all_eq_true]
    rintro ⟨n, e⟩ hp
    rcases mem_analyzeTrends hp with ⟨s, hs, hps⟩
    have hsb : s = schoolBeta := by simpa using hs
    subst hsb
    have h3 := C3_month_alignment psW peW csW ceW 2023 dfBeta schoolBeta n e
      rfl rfl (by decide) (by decide) hps 3
    have h4 := C3_month_alignment psW peW csW ceW 2023 dfBeta schoolBeta n e
      rfl rfl (by decide) (by decide) hps 4
    simp only [Bool.and_eq_true, decide_eq_true_eq]
    exact ⟨h3, h4⟩
  · decide

/-- Helper for C4: once `ChatTrendAnalysis._fetch_data` reaches a day
whose fetch always raises, the loop state never changes again, because
the `current_date` increment sits inside the `try` block. -/
theorem chatTrendFetchLoop_stuck (fuel : Nat) :
    ∀ acc : List ChatRecord, chatTrendFetchLoop failFetch fuel 2 9 acc = none := by
  induction fuel with
  | zero => intro acc; rfl
  | succ fuel ih =>
    intro acc
    rw [chatTrendFetchLoop, if_pos (by omega)]
    have hf : failFetch 2 = none := rfl
    rw [hf]
    exact ih acc

/-- One successful step of the `ChatTrendAnalysis` fetch loop: on a day
whose fetch succeeds, the day advances and the records accumulate. -/
theorem chatTrendFetchLoop_step {fetch : Nat → Option (List ChatRecord)}
    {fuel cur endD : Nat} {acc cs : List ChatRecord}
    (hle : cur ≤ endD) (hf : fetch cur = some cs) :
    chatTrendFetchLoop fetch (fuel + 1) cur endD acc
      = chatTrendFetchLoop fetch fuel (cur + 1) endD (acc ++ cs) := by
  rw [chatTrendFetchLoop, if_pos hle, hf]

/-- C4: the claim that the fetch loop "advances past each failing day and
terminates" fails for `ChatTrendAnalysis._fetch_data` (source lines
36-48): over a 10-day range (days 0..9) whose days 2 and 5 always raise,
the loop never terminates — it returns no result under any fuel bound —
because the date increment is inside the `try` block and is skipped when
`list_day` raises.  (`DateRangeTrendAnalysis._fetch_data.fetch_range`
increments after the handler and is immune.) -/
theorem C4_chat_fetch_loop_diverges :
    ∀ fuel : Nat, ∀ acc : List ChatRecord,
      chatTrendFetchLoop failFetch fuel 0 9 acc = none := by
  intro fuel
  match fuel with
  | 0 => intro acc; rfl
  | 1 => intro acc; rfl
  | (n + 2) =>
    intro acc
    have h0 : failFetch 0 = some [fetchedRec 0] := rfl
    have h1 : failFetch 1 = some [fetchedRec 1] := rfl
    rw [chatTrendFetchLoop_step (by omega) h0,
      chatTrendFetchLoop_step (by omega) h1]
    exact chatTrendFetchLoop_stuck n _

/-- The contrast for C4: the corrected loop of
`DateRangeTrendAnalysis._fetch_data.fetch_range` terminates on the same
failing fetch capability and collects exactly the records of the eight
successful days. -/
theorem rangeFetchLoop_collects_successes :
    rangeFetchLoop failFetch 11 0 9 [] = some (successRecords failFetch 0 9) ∧
    (successRecords failFetch 0 9).length = 8 := by
  constructor <;> rfl

/-- C5: an institution whose queue set is empty, or whose queues match no
record, or for which either period's monthly aggregation is empty, is
entirely absent from the trend output: no output entry carries its short
name (assuming short names identify directory entries uniquely). -/
theorem C5_institution_omitted (ps pe cs ce : Timestamp)
    (schools : List School) (df : List ChatRecord) (s : School)
    (hs : s ∈ schools)
    (huniq : ∀ s2 ∈ schools, s2.short_name = s.short_name → s2 = s)
    (hcond : s.queues = [] ∨ schoolChats df s = [] ∨
      monthlyStats (periodFilter ps pe (schoolChats df s)) = [] ∨
      monthlyStats (periodFilter cs ce (schoolChats df s)) = [])
    (p : String × TrendEntry)
    (hp : p ∈ analyzeTrends ps pe cs ce schools df) :
    p.1 ≠ s.short_name := by
  intro hc
  obtain ⟨n, e⟩ := p
  rcases mem_analyzeTrends hp with ⟨s2, hs2, hps2⟩
  have hname : n = s2.short_name := (processSchool_eq_some hps2).1
  have hs2s : s2 = s := huniq s2 hs2 (by rw [← hname]; exact hc)
  rw [hs2s] at hps2
  rw [processSchool_eq_none hcond] at hps2
  exact Option.noConfusion hps2

/-- Witness for C5: with a directory holding an empty-queue institution
and an active one, the trend output of the `dfBeta` fixture names only
the active one. -/
theorem C5_institution_omitted_witness :
    (analyzeTrends psW peW csW ceW [schoolEmpty, schoolBeta] dfBeta).all
      (fun p => decide (p.1 ≠ schoolEmpty.short_name)) = true ∧
    (analyzeTrends psW peW csW ceW [schoolEmpty, schoolBeta] dfBeta).map
      Prod.fst = ["beta"] := by
  constructor
  · rw [List.all_eq_true]
    intro p hp
    have := C5_institution_omitted psW peW csW ceW [schoolEmpty, schoolBeta]
      dfBeta schoolEmpty (by decide) (by decide) (Or.inl rfl) p hp
    simpa using this
  · decide

/-- C6 counterexample: on an input holding one record whose queue belongs
to no institution and one record with no parseable `started`, the trend
output is the bare empty mapping — it exposes no "unmatched" bucket and
no dropped-record count anywhere; both records are silently discarded,
contradicting the claim that such counts are part of the output. -/
theorem C6_counterexample :
    analyzeTrends psW peW csW ceW [schoolBeta] [recUnmatched, recNoStart] = [] ∧
    recUnmatched.queue ∉ schoolBeta.queues ∧
    recNoStart.started = none := by
  refine ⟨by decide, by decide, rfl⟩

/-- C6 (amended): the trend output consists solely of per-institution
entries — every output key is some directory school's short name — and
records whose queue belongs to no directory institution have no effect
whatsoever on the output; no unmatched bucket and no dropped-record
count exist. -/
theorem C6_amended_no_unmatched_bucket (ps pe cs ce : Timestamp)
    (schools : List School) (df : List ChatRecord) :
    (∀ p ∈ analyzeTrends ps pe cs ce schools df,
      ∃ s ∈ schools, p.1 = s.short_name) ∧
    analyzeTrends ps pe cs ce schools
        (df.filter (fun r => schools.any (fun s => s.queues.contains r.queue)))
      = analyzeTrends ps pe cs ce schools df := by
  constructor
  · intro p hp
    rcases mem_analyzeTrends hp with ⟨s, hs, hps⟩
    exact ⟨s, hs, (processSchool_eq_some hps).1⟩
  · have hchats : ∀ s ∈ schools,
        schoolChats (df.filter (fun r => schools.any (fun s2 => s2.queues.contains r.queue))) s
          = schoolChats df s := by
      intro s hs
      unfold schoolChats
      rw [List.filter_filter]
      apply List.filter_congr
      intro r _
      cases hr : s.queues.contains r.queue with
      | false => rfl
      | true =>
        rw [Bool.true_and]
        exact List.any_eq_true.mpr ⟨s, hs, hr⟩
    have hproc : ∀ s ∈ schools,
        processSchool ps pe cs ce
            (df.filter (fun r => schools.any (fun s2 => s2.queues.contains r.queue))) s
          = processSchool ps pe cs ce df s := by
      intro s hs
      unfold processSchool
      rw [hchats s hs]
    by_cases hdf : df.isEmpty
    · have hdf2 : (df.filter (fun r =>
          schools.any (fun s2 => s2.queues.contains r.queue))).isEmpty = true := by
        rw [List.isEmpty_iff] at *
        rw [hdf]
        rfl
      unfold analyzeTrends
      rw [if_pos hdf, if_pos hdf2]
    · by_cases hdf2 : (df.filter (fun r =>
          schools.any (fun s2 => s2.queues.contains r.queue))).isEmpty
      · have hnone : ∀ s ∈ schools, processSchool ps pe cs ce df s = none := by
          intro s hs
          apply processSchool_eq_none
          right
          left
          rw [← hchats s hs]
          unfold schoolChats
          rw [List.isEmpty_iff] at hdf2
          rw [hdf2]
          rfl
        unfold analyzeTrends
        rw [if_pos hdf2, if_neg hdf]
        symm
        rw [List.filterMap_eq_nil_iff]
        exact hnone
      · unfold analyzeTrends
        rw [if_neg hdf, if_neg hdf2]
        exact List.filterMap_congr hproc

/-- Witness for C6 (amended) at the unmatched-record fixture: removing
the records with unmatched queues leaves the output unchanged. -/
theorem C6_amended_no_unmatched_bucket_witness :
    analyzeTrends psW peW csW ceW [schoolBeta]
        ([recUnmatched, recNoStart].filter
          (fun r => [schoolBeta].any (fun s => s.queues.contains r.queue)))
      = analyzeTrends psW peW csW ceW [schoolBeta] [recUnmatched, recNoStart] :=
  (C6_amended_no_unmatched_bucket psW peW csW ceW [schoolBeta]
    [recUnmatched, recNoStart]).2

/-- C7 counterexample: the unknown-institution failure of
`SchoolChatAnalytics.__init__` and the no-data failure of
`SchoolChatAnalytics._fetch_data` raise exceptions of the same kind —
both are plain `ValueError`s — so a caller cannot branch on the error
kind, only on the message string, contradicting the claim of two
programmatically distinguishable error types. -/
theorem C7_counterexample :
    initSchoolAnalytics [] "Nowhere College"
      = Except.error (schoolNotFoundError "Nowhere College") ∧
    fetchDataResult "Nowhere College" []
      = Except.error (noChatsError "Nowhere College") ∧
    (schoolNotFoundError "Nowhere College").kind
      = (noChatsError "Nowhere College").kind ∧
    schoolNotFoundError "Nowhere College" ≠ noChatsError "Nowhere College" := by
  refine ⟨rfl, rfl, rfl, by decide⟩

/-- C7 (amended): both fatal conditions halt the invocation, but with the
same exception class `ValueError`; the two conditions are distinguishable
only by their message strings, which always differ. -/
theorem C7_amended_same_kind (name : String) (schools : List School)
    (chats : List ChatRecord)
    (hfind : findSchool schools name = none) (hchats : chats = []) :
    initSchoolAnalytics schools name
      = Except.error (schoolNotFoundError name) ∧
    fetchDataResult name chats = Except.error (noChatsError name) ∧
    (schoolNotFoundError name).kind = "ValueError" ∧
    (noChatsError name).kind = "ValueError" ∧
    (schoolNotFoundError name).msg ≠ (noChatsError name).msg := by
  refine ⟨?_, ?_, rfl, rfl, ?_⟩
  · unfold initSchoolAnalytics
    rw [hfind]
  · rw [hchats]
    rfl
  · intro hmsg
    have hlen := congrArg String.length hmsg
    have h1 : ("School \x27" : String).length = 8 := rfl
    have h2 : ("\x27 not found" : String).length = 11 := rfl
    have h3 : ("No chats found for " : String).length = 19 := rfl
    have h4 : (" in the specified date range" : String).length = 28 := rfl
    simp only [schoolNotFoundError, noChatsError, String.length_append,
      h1, h2, h3, h4] at hlen
    omega

/-- Witness for C7 (amended) at an empty directory and empty record
list. -/
theorem C7_amended_same_kind_witness :
    initSchoolAnalytics [] "Nowhere University"
      = Except.error (schoolNotFoundError "Nowhere University") ∧
    fetchDataResult "Nowhere University" []
      = Except.error (noChatsError "Nowhere University") ∧
    (schoolNotFoundError "Nowhere University").kind = "ValueError" ∧
    (noChatsError "Nowhere University").kind = "ValueError" ∧
    (schoolNotFoundError "Nowhere University").msg
      ≠ (noChatsError "Nowhere University").msg :=
  C7_amended_same_kind "Nowhere University" [] [] rfl rfl

/-- C8: a record with `accepted` absent (an abandoned session) is still a
member of its monthly group and is counted in the bucket's `chats` count,
while the bucket's mean wait and mean duration are the means over only
the present values: missing values are excluded from the mean (filtering
them away changes nothing), not treated as zero — `meanOpt [some 10,
none]` is `10`, where a treat-as-zero mean would give `5`. -/
theorem C8_bucket_semantics (rs : List ChatRecord) (r : ChatRecord)
    (y : Int) (m : Nat) (hr : r ∈ rs) (hacc : r.accepted = none)
    (hym : getYM r = some (y, m)) :
    ∃ row ∈ monthlyStats rs,
      row.year = y ∧ row.month = m ∧
      row.chats = (monthGroup rs y m).length ∧
      r ∈ monthGroup rs y m ∧
      row.avg_wait = meanOpt ((monthGroup rs y m).map (·.wait)) ∧
      row.avg_duration = meanOpt ((monthGroup rs y m).map (·.duration)) ∧
      (∀ ws : List (Option ℚ), meanOpt ws = meanOpt (ws.filter (·.isSome))) ∧
      meanOpt [some 10, none] = some 10 ∧
      meanOpt [some 10, some 0] = some 5 := by
  have hk : (y, m) ∈ monthKeys rs := mem_monthKeys.mpr ⟨r, hr, hym⟩
  refine ⟨_, List.mem_map.mpr ⟨(y, m), hk, rfl⟩,
    rfl, rfl, rfl, mem_monthGroup.mpr ⟨hr, hym⟩, rfl, rfl,
    meanOpt_filter_isSome, ?_, ?_⟩
  · have hro : ([some 10, none] : List (Option ℚ)).reduceOption = [10] := rfl
    simp [meanOpt, hro]
  · have hro : ([some 10, some 0] : List (Option ℚ)).reduceOption = [10, 0] := rfl
    simp [meanOpt, hro]
    norm_num

/-- Witness for C8 at the two-record May 2024 fixture, whose first record
is abandoned (`accepted`, `wait`, `duration` all absent). -/
theorem C8_bucket_semantics_witness :
    ∃ row ∈ monthlyStats rsMay,
      row.year = 2024 ∧ row.month = 5 ∧
      row.chats = (monthGroup rsMay 2024 5).length ∧
      rAbandoned ∈ monthGroup rsMay 2024 5 ∧
      row.avg_wait = meanOpt ((monthGroup rsMay 2024 5).map (·.wait)) ∧
      row.avg_duration = meanOpt ((monthGroup rsMay 2024 5).map (·.duration)) ∧
      (∀ ws : List (Option ℚ), meanOpt ws = meanOpt (ws.filter (·.isSome))) ∧
      meanOpt [some 10, none] = some 10 ∧
      meanOpt [some 10, some 0] = some 5 :=
  C8_bucket_semantics rsMay rAbandoned 2024 5 (List.mem_cons_self _ _) rfl rfl

/-- C9: the report assembler's institution ordering — Python
`sorted(trends.items(), key=...)`, embedded as the stable ascending
insertion sort `sortedByChange` — is sorted by ascending aggregate volume
change, is a permutation of the engine output, and is stable: the
entries of any fixed key keep their original relative order (their filter
is unchanged), so the ordering is deterministic in the engine output. -/
theorem C9_sorted_stable (l : List (String × TrendEntry)) :
    List.Sorted entryLe (sortedByChange l) ∧
    List.Perm (sortedByChange l) l ∧
    ∀ k : ℚ, (sortedByChange l).filter (fun e => decide (entryKey e = k))
      = l.filter (fun e => decide (entryKey e = k)) := by
  unfold sortedByChange
  refine ⟨List.sorted_insertionSort entryLe l,
    List.perm_insertionSort entryLe l, ?_⟩
  intro k
  have hpair : (l.filter (fun e => decide (entryKey e = k))).Pairwise entryLe := by
    apply List.pairwise_of_forall_mem_list
    intro a ha b hb
    have hka : entryKey a = k := by
      have := (List.mem_filter.mp ha).2
      simpa using this
    have hkb : entryKey b = k := by
      have := (List.mem_filter.mp hb).2
      simpa using this
    unfold entryLe
    rw [hka, hkb]
  have hsub : List.Sublist (l.filter (fun e => decide (entryKey e = k)))
      (List.insertionSort entryLe l) :=
    List.sublist_insertionSort hpair (List.filter_sublist l)
  have hself : (l.filter (fun e => decide (entryKey e = k))).filter
      (fun e => decide (entryKey e = k)) = l.filter (fun e => decide (entryKey e = k)) :=
    List.filter_eq_self.mpr (fun a ha => (List.mem_filter.mp ha).2)
  have hsub2 : List.Sublist (l.filter (fun e => decide (entryKey e = k)))
      ((List.insertionSort entryLe l).filter (fun e => decide (entryKey e = k))) := by
    rw [← hself]
    exact hsub.filter _
  have hlen : ((List.insertionSort entryLe l).filter
      (fun e => decide (entryKey e = k))).length
      = (l.filter (fun e => decide (entryKey e = k))).length :=
    ((List.perm_insertionSort entryLe l).filter _).length_eq
  exact (hsub2.eq_of_length hlen.symm).symm

/-- C10: every change row the engine emits has `prev_volume ≥ 1` — a
`(year, month)` group exists in the monthly aggregation only if at least
one record falls in it — so the divisor of `percent_change_volume` is
never zero; a zero reference volume for an aligned month cannot arise at
monthly granularity. -/
theorem C10_reference_volume_positive (ps pe cs ce : Timestamp)
    (schools : List School) (df : List ChatRecord)
    (p : String × TrendEntry) (hp : p ∈ analyzeTrends ps pe cs ce schools df)
    (c : ChangeRow) (hc : c ∈ p.2.changes) :
    1 ≤ c.prev_volume ∧ ((c.prev_volume : ℚ) ≠ 0) := by
  rcases mem_analyzeTrends hp with ⟨s, -, hps⟩
  rcases processSchool_eq_some hps with ⟨-, hch, -⟩
  rw [hch] at hc
  rcases alignedChanges_prev_data hc with ⟨pr, hpr, hpv, -⟩
  have h1 : 1 ≤ pr.chats := chats_pos_of_mem_monthlyStats hpr
  constructor
  · omega
  · rw [hpv]
    exact Nat.cast_ne_zero.mpr (by omega)

/-- Witness for C10 on the `dfBeta` fixture: the single emitted entry has
one change row and its reference volume is at least 1. -/
theorem C10_reference_volume_positive_witness :
    (analyzeTrends psW peW csW ceW [schoolBeta] dfBeta).all
      (fun p => p.2.changes.all (fun c => decide (1 ≤ c.prev_volume))) = true ∧
    (analyzeTrends psW peW csW ceW [schoolBeta] dfBeta).map
      (fun p => p.2.changes.length) = [1] := by
  constructor
  · simp only [List.all_eq_true, decide_eq_true_eq]
    intro p hp c hc
    exact (C10_reference_volume_positive psW peW csW ceW [schoolBeta] dfBeta
      p hp c hc).1
  · decide

end SpAsk
